import Mathlib

/-
Shallow embedding of rpasm.py: a one-pass transpiler from a stack-oriented
RPN notation to x86-64 assembly text.  The scanner (Scanner.scan) is embedded
as a fuel-indexed function on a list of characters (the Python args loop can
diverge at end of input, so fuel is needed for totality); the code generator
(Compiler.compile) is embedded as a pure function from tokens to the list of
emitted lines, paired with the error raised, if any.  Strings are treated as
their character lists; Python machine behaviour on ASCII input is modelled
(Python's str.isdigit additionally accepts some non-ASCII Unicode digit
characters, which are outside this model).
-/

/-- The sigil characters, PREFIXES in the source (rpasm.py lines 7-14). -/
def SIGILS : List Char := ['$', '@', '?', ':', '#', '.']

/-- TYPES dict (rpasm.py lines 15-20): data type name to directive letter. -/
def TYPES : List (String × String) :=
  [("byte", "b"), ("word", "w"), ("dword", "d"), ("qword", "q")]

/-- RDI_BY_SIZE dict (rpasm.py lines 21-26). -/
def RDI_BY_SIZE : List (String × String) :=
  [("byte", "dil"), ("word", "di"), ("dword", "edi"), ("qword", "rdi")]

/-- CONDITIONAL_OPERATORS dict (rpasm.py lines 27-30). -/
def CONDITIONAL_OPERATORS : List (String × String) :=
  [("==", "e"), ("!=", "ne")]

/-- SIMPLE_BINARY_OPERATORS dict (rpasm.py lines 31-34). -/
def SIMPLE_BINARY_OPERATORS : List (String × String) :=
  [("+", "add"), ("-", "sub")]

/-- CALL_ARG_REGS (rpasm.py lines 44-51): the six call-argument registers. -/
def CALL_ARG_REGS : List String := ["rdi", "rsi", "rdx", "rcx", "r8", "r9"]

/-- SYSCALL_ARG_REGS (rpasm.py lines 52-60): the seven syscall registers. -/
def SYSCALL_ARG_REGS : List String :=
  ["rax", "rdi", "rsi", "rdx", "r10", "r8", "r9"]

/-- A scanned payload or argument: Python `str | int` (always a non-negative
integer, produced by int() on an all-digit string). -/
inductive Arg where
  | int (n : Nat)
  | str (s : String)
deriving DecidableEq

/-- The three token shapes (rpasm.py lines 72-87).  The Python ValueToken
field named after the sigil characters is called sigil here. -/
inductive Token where
  | FunctionToken (name : String) (args : List Arg)
  | ValueToken (sigil : Option Char) (value : Arg)
  | StringToken (value : String)
deriving DecidableEq

/-- Python str.isspace for the ASCII whitespace characters. -/
def pyIsSpace (c : Char) : Bool :=
  c = ' ' || c = '\t' || c = '\n' || c = '\x0b' || c = '\x0c' || c = '\r'

/-- Python str.isdigit on ASCII text: non-empty and every character a
decimal digit (note: False on the empty string). -/
def pyIsDigitStr (s : String) : Bool :=
  !s.data.isEmpty && s.data.all Char.isDigit

/-- Python int() on a string of decimal digits. -/
def pyStrToNat (s : String) : Nat :=
  s.data.foldl (fun acc c => acc * 10 + (c.toNat - 48)) 0

/-- Classification used at both scanner sites (rpasm.py lines 129-130 and
149-150): `int(value) if value.isdigit() else value`. -/
def pyClassify (s : String) : Arg :=
  if pyIsDigitStr s then .int (pyStrToNat s) else .str s

/-- Scanner errors (the messages of the Exceptions raised in Scanner.scan).
unclosedFunction is the message at rpasm.py line 153. -/
inductive ScanError where
  | unclosedString
  | prefixedFunction
  | unclosedFunction
deriving DecidableEq

/-- Result of running the scanner with a given amount of fuel.  outOfFuel
means the scanner was still running when the fuel ran out; a computation
that is outOfFuel for every fuel diverges. -/
inductive ScanResult where
  | ok (toks : List Token)
  | err (e : ScanError)
  | outOfFuel
deriving DecidableEq

/-- Result of the argument-collecting loop (rpasm.py lines 138-151). -/
inductive ArgsResult where
  | argsOk (args : List Arg) (rest : List Char)
  | argsOut
deriving DecidableEq

/-- String-literal body collection (rpasm.py lines 111-118): characters up
to the closing quote; none when input ends first (unclosed string). -/
def collectString : List Char → Option (List Char × List Char)
  | [] => none
  | c :: rest =>
    if c = '"' then some ([], rest)
    else (collectString rest).map (fun p => (c :: p.1, p.2))

/-- Comment skipping (rpasm.py lines 105-109): drop up to the next newline,
then drop the newline itself if input has not ended. -/
def skipComment (cs : List Char) : List Char :=
  (cs.dropWhile (fun c => c ≠ '\n')).tail

/-- One character of a bare payload: not whitespace and not an opening
parenthesis (rpasm.py line 126). -/
def isValueChar (c : Char) : Bool := !pyIsSpace c && c ≠ '('

/-- One character of a function argument: not a comma and not a closing
parenthesis (rpasm.py line 144). -/
def isArgChar (c : Char) : Bool := c ≠ ',' && c ≠ ')'

/-- The function-argument loop (rpasm.py lines 138-151), fuel-indexed: skip
whitespace; stop (without consuming) at a closing parenthesis; otherwise
collect one argument up to a comma or closing parenthesis, drop a trailing
comma, classify, and repeat.  Note the loop only terminates on a closing
parenthesis: at end of input it keeps appending empty arguments forever,
which the fuel makes visible as argsOut for every fuel. -/
def scanArgs : Nat → List Char → List Arg → ArgsResult
  | 0, _, _ => .argsOut
  | fuel + 1, cs, args =>
    let cs1 := cs.dropWhile pyIsSpace
    if cs1.head? = some ')' then .argsOk args cs1
    else
      let a := cs1.takeWhile isArgChar
      let cs2 := cs1.dropWhile isArgChar
      let cs3 := if cs2.head? = some ',' then cs2.tail else cs2
      scanArgs fuel cs3 (args ++ [pyClassify (String.mk a)])

/-- The scanner main loop (Scanner.scan, rpasm.py lines 100-155), on the
remaining character list, accumulating tokens in order.  After the argument
loop returns, the head of the remainder is the closing parenthesis it
stopped on, so the unclosed-function check (rpasm.py lines 152-153, kept
here verbatim) can never fire. -/
def scanLoop : Nat → List Char → List Token → ScanResult
  | 0, _, _ => .outOfFuel
  | fuel + 1, cs, toks =>
    match cs with
    | [] => .ok toks
    | c :: rest =>
      if pyIsSpace c then scanLoop fuel rest toks
      else if c = ';' then scanLoop fuel (skipComment (c :: rest)) toks
      else if c = '"' then
        match collectString rest with
        | none => .err .unclosedString
        | some (s, rest1) =>
          scanLoop fuel rest1 (toks ++ [.StringToken (String.mk s)])
      else
        let sig : Option Char := if c ∈ SIGILS then some c else none
        let cs1 := if c ∈ SIGILS then rest else c :: rest
        let val := cs1.takeWhile isValueChar
        let cs2 := cs1.dropWhile isValueChar
        if cs2.head? ≠ some '(' then
          scanLoop fuel cs2 (toks ++ [.ValueToken sig (pyClassify (String.mk val))])
        else if sig.isSome then .err .prefixedFunction
        else
          match scanArgs fuel cs2.tail [] with
          | .argsOut => .outOfFuel
          | .argsOk args cs3 =>
            if cs3 = [] then .err .unclosedFunction
            else scanLoop fuel cs3.tail (toks ++ [.FunctionToken (String.mk val) args])

/-- Scan a whole input string with the given fuel. -/
def scanString (fuel : Nat) (s : String) : ScanResult :=
  scanLoop fuel s.data []

/-- asm_str (rpasm.py lines 62-70): append a NUL terminator unless the text
already ends with one, then build one db line, joining the character
ordinals with commas (the accumulator comparison mirrors the Python
`if asm_str != "db "` check). -/
def asm_str (val : String) : String :=
  let chars :=
    if val.data.getLast? = some '\x00' then val.data else val.data ++ ['\x00']
  String.mk (chars.foldl
    (fun acc c =>
      (if acc = "db ".data then acc else acc ++ ", ".data) ++ (toString c.toNat).data)
    ("db ".data))

/-- The errors Compiler.compile can raise: the three invalid-construct
Exception messages (rpasm.py lines 198, 225, 244) and the IndexError from
an out-of-range register-list subscript.  The fourth message at line 246
(invalid token) is unreachable here because the Token type is closed. -/
inductive CompileError where
  | invalidFunction
  | invalidStringValue
  | invalidIntegerValue
  | indexError
deriving DecidableEq

/-- Python str() on a scanned argument. -/
def argToString : Arg → String
  | .int n => toString n
  | .str s => s

/-- Whether an Arg is a Python int (the isinstance(arg, int) checks). -/
def Arg.isInt : Arg → Bool
  | .int _ => true
  | .str _ => false

/-- Emit one line `op ++ regs[i]` per index, in order, stopping with an
IndexError when an index is past the end of the register list (the
unguarded CALL_ARG_REGS[i] / SYSCALL_ARG_REGS[i] subscripts in the call,
syscall and args branches).  Lines yielded before the failing subscript
are kept, matching generator semantics. -/
def emitRegLines (op : String) (regs : List String) : List Nat → List String × Option CompileError
  | [] => ([], none)
  | i :: is =>
    match regs[i]? with
    | none => ([], some .indexError)
    | some r =>
      match emitRegLines op regs is with
      | (ls, e) => ((op ++ r) :: ls, e)

/-- The FunctionToken branch of Compiler.compile (rpasm.py lines 167-198):
each function name is checked together with its arity and argument types;
any other shape raises the invalid-function error. -/
def compileFunction (name : String) (args : List Arg) : List String × Option CompileError :=
  if name = "global" then
    match args with
    | [.str s] => ([ "global " ++ s], none)
    | _ => ([], some .invalidFunction)
  else if name = "data" then
    match args with
    | .str t :: v :: rest =>
      match TYPES.lookup t with
      | some w =>
        if (v :: rest).all Arg.isInt then
          ([ "d" ++ w ++ " " ++ String.intercalate ", " ((v :: rest).map argToString)], none)
        else ([], some .invalidFunction)
      | none => ([], some .invalidFunction)
    | _ => ([], some .invalidFunction)
  else if name = "call" then
    match args with
    | [.str nm, .int argc] =>
      match emitRegLines "pop " CALL_ARG_REGS (List.range argc).reverse with
      | (ls, some e) => (ls, some e)
      | (ls, none) => (ls ++ [ "call " ++ nm, "push rax"], none)
    | _ => ([], some .invalidFunction)
  else if name = "syscall" then
    match args with
    | [.int argc] =>
      match emitRegLines "pop " SYSCALL_ARG_REGS (List.range argc).reverse with
      | (ls, some e) => (ls, some e)
      | (ls, none) => (ls ++ [ "syscall", "push rax"], none)
    | _ => ([], some .invalidFunction)
  else if name = "jmp" then
    match args with
    | [.str l] => ([ "jmp " ++ l], none)
    | _ => ([], some .invalidFunction)
  else if name = "jmpif" then
    match args with
    | [.str l] => ([ "pop rax", "test rax, rax", "jnz " ++ l], none)
    | _ => ([], some .invalidFunction)
  else if name = "return" then
    match args with
    | [] => ([ "pop rax", "ret"], none)
    | _ => ([], some .invalidFunction)
  else if name = "args" then
    match args with
    | [.int n] => emitRegLines "push " CALL_ARG_REGS (List.range n)
    | _ => ([], some .invalidFunction)
  else ([], some .invalidFunction)

/-- The ValueToken branches of Compiler.compile (rpasm.py lines 199-244).
The membership tests on the operator dictionaries and the companion
lookups mirror the Python `tk.value in DICT` / `DICT[tk.value]` pairs. -/
def compileValue (sig : Option Char) : Arg → List String × Option CompileError
  | .str s =>
    if sig = some '#' ∧ (TYPES.lookup s).isSome then
      ([ "pop rax", "xor rdi, rdi",
        "mov " ++ ((RDI_BY_SIZE.lookup s).getD "") ++ ", " ++ s ++ " [rax]",
        "push rdi"], none)
    else if sig = some '.' then ([ "section " ++ s], none)
    else if sig = some ':' then ([s ++ ":"], none)
    else if sig = some '$' then ([ "mov rax, " ++ s, "push rax"], none)
    else if sig = none ∧ (CONDITIONAL_OPERATORS.lookup s).isSome then
      ([ "pop rax", "pop rdi", "xor rsi, rsi", "cmp rax, rdi",
        "set" ++ ((CONDITIONAL_OPERATORS.lookup s).getD "") ++ " sil",
        "push rsi"], none)
    else if sig = none ∧ (SIMPLE_BINARY_OPERATORS.lookup s).isSome then
      ([ "pop rax", "pop rdi",
        ((SIMPLE_BINARY_OPERATORS.lookup s).getD "") ++ " rax, rdi",
        "push rax"], none)
    else ([], some .invalidStringValue)
  | .int n =>
    if sig = none then ([ "push " ++ toString n], none)
    else if sig = some '$' then
      ([ "mov rax, [rsp + " ++ toString (n * 8) ++ "]", "push rax"], none)
    else if sig = some '@' then
      ([ "mov rax, rsp", "add rax, " ++ toString (n * 8), "push rax"], none)
    else if sig = some '?' then ([ "add rsp, " ++ toString (n * 8)], none)
    else if sig = some ':' then
      ([ "mov rax, [rsp]", "mov rdi, [rsp + " ++ toString (n * 8) ++ "]",
        "mov [rsp], rdi", "mov [rsp + " ++ toString (n * 8) ++ "], rax"], none)
    else ([], some .invalidIntegerValue)

/-- The lines emitted for one token, with the error raised, if any
(the body of the per-token dispatch in Compiler.compile). -/
def compileToken : Token → List String × Option CompileError
  | .StringToken s => ([asm_str s], none)
  | .FunctionToken name args => compileFunction name args
  | .ValueToken sig v => compileValue sig v

/-- Compiler.compile over a token sequence: lines are produced in token
order; the first error stops compilation, keeping the lines already
emitted (including any lines the failing token produced before raising). -/
def compileTokens : List Token → List String × Option CompileError
  | [] => ([], none)
  | tk :: rest =>
    match compileToken tk with
    | (ls, some e) => (ls, some e)
    | (ls, none) =>
      match compileTokens rest with
      | (ls1, e1) => (ls ++ ls1, e1)

/-- 2^64: registers and stack slots are 64-bit machine words. -/
def WORDSIZE : Nat := 2 ^ 64

/-- A micro-model of the x86-64 state touched by the emitted operator
sequences: the three registers the generator uses, the zero flag, and the
runtime stack (head = top of stack). -/
structure Machine where
  rax : Nat
  rdi : Nat
  rsi : Nat
  zf : Bool
  stack : List Nat
deriving DecidableEq

/-- The instructions appearing in the emitted operator sequences. -/
inductive Instr where
  | popRax | popRdi | popRsi
  | pushRax | pushRsi
  | xorRsiRsi
  | cmpRaxRdi
  | seteSil | setneSil
  | addRaxRdi | subRaxRdi
deriving DecidableEq

/-- Decode an emitted text line back to an instruction of the micro-model
(only the lines the operator rules emit are decodable). -/
def decodeLine : String → Option Instr
  | "pop rax" => some .popRax
  | "pop rdi" => some .popRdi
  | "pop rsi" => some .popRsi
  | "push rax" => some .pushRax
  | "push rsi" => some .pushRsi
  | "xor rsi, rsi" => some .xorRsiRsi
  | "cmp rax, rdi" => some .cmpRaxRdi
  | "sete sil" => some .seteSil
  | "setne sil" => some .setneSil
  | "add rax, rdi" => some .addRaxRdi
  | "sub rax, rdi" => some .subRaxRdi
  | _ => none

/-- x86-64 semantics of the decoded instructions: pops fail on an empty
stack; arithmetic is modulo 2^64; cmp sets the zero flag from the 64-bit
difference; sete/setne write 0 or 1 into the low byte of rsi. -/
def step (i : Instr) (m : Machine) : Option Machine :=
  match i with
  | .popRax =>
    match m.stack with
    | [] => none
    | a :: r => some { m with rax := a, stack := r }
  | .popRdi =>
    match m.stack with
    | [] => none
    | a :: r => some { m with rdi := a, stack := r }
  | .popRsi =>
    match m.stack with
    | [] => none
    | a :: r => some { m with rsi := a, stack := r }
  | .pushRax => some { m with stack := m.rax :: m.stack }
  | .pushRsi => some { m with stack := m.rsi :: m.stack }
  | .xorRsiRsi => some { m with rsi := 0 }
  | .cmpRaxRdi => some { m with zf := decide (m.rax % WORDSIZE = m.rdi % WORDSIZE) }
  | .seteSil => some { m with rsi := m.rsi / 256 * 256 + (if m.zf then 1 else 0) }
  | .setneSil => some { m with rsi := m.rsi / 256 * 256 + (if m.zf then 0 else 1) }
  | .addRaxRdi => some { m with rax := (m.rax % WORDSIZE + m.rdi % WORDSIZE) % WORDSIZE }
  | .subRaxRdi =>
    some { m with rax := (m.rax % WORDSIZE + (WORDSIZE - m.rdi % WORDSIZE)) % WORDSIZE }

/-- Execute a list of emitted lines on a machine state, failing if a line
is not decodable or a pop underflows. -/
def execLines (lines : List String) (m : Machine) : Option Machine :=
  lines.foldl (fun om l => om.bind fun mm => (decodeLine l).bind fun i => step i mm) (some m)

lemma emitRegLines_ok (op : String) (regs : List String) :
    ∀ idxs : List Nat, (∀ i ∈ idxs, i < regs.length) →
      emitRegLines op regs idxs = (idxs.map (fun i => op ++ (regs[i]?.getD "")), none) := by
  intro idxs
  induction idxs with
  | nil => intro _; rfl
  | cons i is ih =>
    intro h
    have hi : i < regs.length := h i (by simp)
    have hg : regs[i]? = some (regs.get ⟨i, hi⟩) := by
      rw [List.getElem?_eq_getElem hi, List.get_eq_getElem]
    have hrec := ih (fun j hj => h j (by simp [hj]))
    simp only [emitRegLines, hg, hrec, List.map_cons, Option.getD_some]

lemma emitRegLines_head_oob (op : String) (regs : List String) (i : Nat) (is : List Nat)
    (h : regs.length ≤ i) : emitRegLines op regs (i :: is) = ([], some .indexError) := by
  have hg : regs[i]? = none := List.getElem?_eq_none h
  simp only [emitRegLines, hg]

lemma emitRegLines_append_err (op : String) (regs : List String) :
    ∀ (l1 l2 : List Nat) (ls : List String) (e : CompileError),
      emitRegLines op regs l1 = (ls, some e) →
      emitRegLines op regs (l1 ++ l2) = (ls, some e) := by
  intro l1
  induction l1 with
  | nil => intro l2 ls e h; exact absurd h (by simp [emitRegLines])
  | cons i is ih =>
    intro l2 ls e h
    rw [List.cons_append]
    cases hg : regs[i]? with
    | none =>
      simp only [emitRegLines, hg] at h ⊢
      exact h
    | some r =>
      simp only [emitRegLines, hg] at h ⊢
      cases hrec : emitRegLines op regs is with
      | mk ls1 e1 =>
        rw [hrec] at h
        have h1 : (op ++ r) :: ls1 = ls := congrArg Prod.fst h
        have h2 : e1 = some e := congrArg Prod.snd h
        rw [ih l2 ls1 e (by rw [hrec, h2]), ← h1]

lemma compileTokens_append_ok :
    ∀ (ts1 ts2 : List Token) (l1 : List String),
      compileTokens ts1 = (l1, none) →
      compileTokens (ts1 ++ ts2) = (l1 ++ (compileTokens ts2).1, (compileTokens ts2).2) := by
  intro ts1
  induction ts1 with
  | nil =>
    intro ts2 l1 h
    have : l1 = [] := (Prod.mk.injEq .. ▸ h.symm).1
    subst this
    simp
  | cons tk rest ih =>
    intro ts2 l1 h
    cases hc : compileToken tk with
    | mk ls e =>
      cases e with
      | some e0 =>
        simp only [compileTokens, hc] at h
        exact absurd (congrArg Prod.snd h) (by simp)
      | none =>
        simp only [compileTokens, hc] at h
        cases hr : compileTokens rest with
        | mk ls1 e1 =>
          rw [hr] at h
          have h1 : ls ++ ls1 = l1 := congrArg Prod.fst h
          have h2 : e1 = none := congrArg Prod.snd h
          subst h2
          rw [List.cons_append]
          simp only [compileTokens, hc, ih ts2 ls1 hr]
          rw [← h1, List.append_assoc]

lemma compileTokens_cons_err (tk : Token) (rest : List Token) (e : CompileError)
    (h : (compileToken tk).2 = some e) :
    compileTokens (tk :: rest) = ((compileToken tk).1, some e) := by
  cases hc : compileToken tk with
  | mk ls e1 =>
    rw [hc] at h
    simp only at h
    subst h
    simp only [compileTokens, hc]

/-- C4: call(foo, 2) emits exactly the four lines pop rsi / pop rdi /
call foo / push rax; in general, for argc within the six available
call-argument registers, call(name, argc) emits one pop per register index
argc-1 down to 0 followed by the call and a push of rax, and executing the
pops assigns the latest-popped value to the first call-argument register
rdi (earlier pops fill later registers, here rsi). -/
theorem C4_call_emission :
    compileToken (.FunctionToken "call" [.str "foo", .int 2]) =
      ([ "pop rsi", "pop rdi", "call foo", "push rax"], none)
    ∧ (∀ (nm : String) (argc : Nat), argc ≤ 6 →
        compileToken (.FunctionToken "call" [.str nm, .int argc]) =
          ((List.range argc).reverse.map (fun i => "pop " ++ (CALL_ARG_REGS[i]?.getD "")) ++
            [ "call " ++ nm, "push rax"], none))
    ∧ (∀ (a b : Nat) (r : List Nat),
        execLines [ "pop rsi", "pop rdi"] ⟨0, 0, 0, false, a :: b :: r⟩ =
          some ⟨0, b, a, false, r⟩) := by
  refine ⟨by decide, ?_, fun a b r => rfl⟩
  intro nm argc hle
  have hbody : compileToken (.FunctionToken "call" [.str nm, .int argc]) =
      (match emitRegLines "pop " CALL_ARG_REGS (List.range argc).reverse with
       | (ls, some e) => (ls, some e)
       | (ls, none) => (ls ++ [ "call " ++ nm, "push rax"], none)) := rfl
  have hbound : ∀ i ∈ (List.range argc).reverse, i < CALL_ARG_REGS.length := by
    intro i hi
    have : i < argc := List.mem_range.mp (List.mem_reverse.mp hi)
    have hlen : CALL_ARG_REGS.length = 6 := rfl
    omega
  rw [hbody, emitRegLines_ok "pop " CALL_ARG_REGS (List.range argc).reverse hbound]

/-- C4 witness: the general emission rule instantiated at call(bar, 3). -/
theorem C4_call_emission_witness :
    (3 ≤ 6)
    ∧ compileToken (.FunctionToken "call" [.str "bar", .int 3]) =
        ((List.range 3).reverse.map (fun i => "pop " ++ (CALL_ARG_REGS[i]?.getD "")) ++
          [ "call " ++ "bar", "push rax"], none) :=
  ⟨by decide, C4_call_emission.2.1 "bar" 3 (by decide)⟩

/-- C8: compilation is deterministic: the output of compileTokens is a pure
function of the token sequence (the embedding has no other state, matching
the Python class whose only state is the token iterator itself). -/
theorem C8_deterministic :
    ∀ ts1 ts2 : List Token, ts1 = ts2 → compileTokens ts1 = compileTokens ts2 := by
  intro ts1 ts2 h
  rw [h]

/-- C8 witness: two runs on the same concrete token sequence agree. -/
theorem C8_deterministic_witness :
    ([Token.StringToken "A"] : List Token) = [Token.StringToken "A"]
    ∧ compileTokens [Token.StringToken "A"] = compileTokens [Token.StringToken "A"] :=
  ⟨rfl, C8_deterministic [Token.StringToken "A"] [Token.StringToken "A"] rfl⟩

/-- C10: the generator is stateless across tokens: when both halves compile
without error, compiling the concatenation yields exactly the concatenation
of the two line sequences. -/
theorem C10_stateless_concat :
    ∀ (ts1 ts2 : List Token) (l1 l2 : List String),
      compileTokens ts1 = (l1, none) → compileTokens ts2 = (l2, none) →
      compileTokens (ts1 ++ ts2) = (l1 ++ l2, none) := by
  intro ts1 ts2 l1 l2 h1 h2
  rw [compileTokens_append_ok ts1 ts2 l1 h1, h2]

/-- C10 witness: concatenating a push-literal token and a + token compiles
to the concatenation of their individual line sequences. -/
theorem C10_stateless_concat_witness :
    compileTokens [Token.ValueToken none (Arg.int 1)] = ([ "push 1"], none)
    ∧ compileTokens [Token.ValueToken none (Arg.str "+")] =
        ([ "pop rax", "pop rdi", "add rax, rdi", "push rax"], none)
    ∧ compileTokens ([Token.ValueToken none (Arg.int 1)] ++ [Token.ValueToken none (Arg.str "+")]) =
        ([ "push 1"] ++ [ "pop rax", "pop rdi", "add rax, rdi", "push rax"], none) :=
  ⟨by decide, by decide,
    C10_stateless_concat [Token.ValueToken none (Arg.int 1)] [Token.ValueToken none (Arg.str "+")]
      [ "push 1"] [ "pop rax", "pop rdi", "add rax, rdi", "push rax"] (by decide) (by decide)⟩

/-- C7: tokens matching no generation rule fail with the invalid-construct
errors (the invalid function / invalid string value / invalid integer value
Exceptions): an unknown function name, a known function with wrong arity
(data with only a type and no values), a value with an unrecognized
sigil/payload combination; and compilation aborts at the first failing
token, keeping exactly the lines already emitted before it. -/
theorem C7_invalid_construct :
    compileToken (.FunctionToken "bogus" []) = ([], some .invalidFunction)
    ∧ compileToken (.FunctionToken "data" [.str "byte"]) = ([], some .invalidFunction)
    ∧ compileToken (.ValueToken (some '#') (.str "foo")) = ([], some .invalidStringValue)
    ∧ compileToken (.ValueToken (some '#') (.int 3)) = ([], some .invalidIntegerValue)
    ∧ (∀ (pre : List Token) (bad : Token) (post : List Token)
          (l1 : List String) (e : CompileError),
        compileTokens pre = (l1, none) → (compileToken bad).2 = some e →
        compileTokens (pre ++ bad :: post) = (l1 ++ (compileToken bad).1, some e)) := by
  refine ⟨by decide, by decide, by decide, by decide, ?_⟩
  intro pre bad post l1 e h1 h2
  rw [compileTokens_append_ok pre (bad :: post) l1 h1,
    compileTokens_cons_err bad post e h2]

/-- C7 witness: a good token, then an unknown function, then a further
token: output is exactly the good token's line and the invalid-function
error; the token after the failing one contributes nothing. -/
theorem C7_invalid_construct_witness :
    compileTokens [Token.ValueToken none (Arg.int 5)] = ([ "push 5"], none)
    ∧ (compileToken (Token.FunctionToken "bogus" [])).2 = some CompileError.invalidFunction
    ∧ compileTokens
        ([Token.ValueToken none (Arg.int 5)] ++
          Token.FunctionToken "bogus" [] :: [Token.StringToken "x"]) =
        ([ "push 5"] ++ (compileToken (Token.FunctionToken "bogus" [])).1,
          some CompileError.invalidFunction) :=
  ⟨by decide, by decide,
    C7_invalid_construct.2.2.2.2 [Token.ValueToken none (Arg.int 5)]
      (Token.FunctionToken "bogus" []) [Token.StringToken "x"]
      [ "push 5"] CompileError.invalidFunction (by decide) (by decide)⟩

/-- C9: the register-list subscripts are unguarded: call with argc above 6,
syscall with argc above 7, and args with n above 6 fail with the IndexError
from the out-of-range subscript, not with an invalid-construct error; for
call and syscall the out-of-range index comes first (the loop runs over
reversed indices) so no pop is emitted, while args pushes all six
call-argument registers before failing. -/
theorem C9_register_index_overflow :
    (∀ (nm : String) (argc : Nat), 6 < argc →
        compileToken (.FunctionToken "call" [.str nm, .int argc]) =
          ([], some .indexError))
    ∧ (∀ argc : Nat, 7 < argc →
        compileToken (.FunctionToken "syscall" [.int argc]) =
          ([], some .indexError))
    ∧ (∀ n : Nat, 6 < n →
        compileToken (.FunctionToken "args" [.int n]) =
          ([ "push rdi", "push rsi", "push rdx", "push rcx", "push r8", "push r9"],
            some .indexError)) := by
  refine ⟨?_, ?_, ?_⟩
  · intro nm argc hgt
    obtain ⟨k, rfl⟩ : ∃ k, argc = k + 1 := ⟨argc - 1, by omega⟩
    have hrev : (List.range (k + 1)).reverse = k :: (List.range k).reverse := by
      rw [List.range_succ, List.reverse_append]
      rfl
    have hoob : emitRegLines "pop " CALL_ARG_REGS ((List.range (k + 1)).reverse) =
        ([], some .indexError) := by
      rw [hrev]
      exact emitRegLines_head_oob "pop " CALL_ARG_REGS k (List.range k).reverse (by
        have : CALL_ARG_REGS.length = 6 := rfl
        omega)
    have hbody : compileToken (.FunctionToken "call" [.str nm, .int (k + 1)]) =
        (match emitRegLines "pop " CALL_ARG_REGS (List.range (k + 1)).reverse with
         | (ls, some e) => (ls, some e)
         | (ls, none) => (ls ++ [ "call " ++ nm, "push rax"], none)) := rfl
    rw [hbody, hoob]
  · intro argc hgt
    obtain ⟨k, rfl⟩ : ∃ k, argc = k + 1 := ⟨argc - 1, by omega⟩
    have hrev : (List.range (k + 1)).reverse = k :: (List.range k).reverse := by
      rw [List.range_succ, List.reverse_append]
      rfl
    have hoob : emitRegLines "pop " SYSCALL_ARG_REGS ((List.range (k + 1)).reverse) =
        ([], some .indexError) := by
      rw [hrev]
      exact emitRegLines_head_oob "pop " SYSCALL_ARG_REGS k (List.range k).reverse (by
        have : SYSCALL_ARG_REGS.length = 7 := rfl
        omega)
    have hbody : compileToken (.FunctionToken "syscall" [.int (k + 1)]) =
        (match emitRegLines "pop " SYSCALL_ARG_REGS (List.range (k + 1)).reverse with
         | (ls, some e) => (ls, some e)
         | (ls, none) => (ls ++ [ "syscall", "push rax"], none)) := rfl
    rw [hbody, hoob]
  · intro n hgt
    obtain ⟨m, rfl⟩ : ∃ m, n = 7 + m := ⟨n - 7, by omega⟩
    have hsplit : List.range (7 + m) = List.range 7 ++ (List.range m).map (7 + ·) :=
      List.range_add 7 m
    have hbase : emitRegLines "push " CALL_ARG_REGS (List.range 7) =
        ([ "push rdi", "push rsi", "push rdx", "push rcx", "push r8", "push r9"],
          some .indexError) := by decide
    have hfull : emitRegLines "push " CALL_ARG_REGS (List.range (7 + m)) =
        ([ "push rdi", "push rsi", "push rdx", "push rcx", "push r8", "push r9"],
          some .indexError) := by
      rw [hsplit]
      exact emitRegLines_append_err "push " CALL_ARG_REGS (List.range 7)
        ((List.range m).map (7 + ·)) _ _ hbase
    have hbody : compileToken (.FunctionToken "args" [.int (7 + m)]) =
        emitRegLines "push " CALL_ARG_REGS (List.range (7 + m)) := rfl
    rw [hbody, hfull]

/-- C9 witness: the three overflow rules at the smallest failing arities. -/
theorem C9_register_index_overflow_witness :
    (6 < 7) ∧ compileToken (.FunctionToken "call" [.str "x", .int 7]) = ([], some .indexError)
    ∧ (7 < 8) ∧ compileToken (.FunctionToken "syscall" [.int 8]) = ([], some .indexError)
    ∧ (6 < 7) ∧ compileToken (.FunctionToken "args" [.int 7]) =
        ([ "push rdi", "push rsi", "push rdx", "push rcx", "push r8", "push r9"],
          some .indexError) :=
  ⟨by decide, C9_register_index_overflow.1 "x" 7 (by decide),
    by decide, C9_register_index_overflow.2.1 8 (by decide),
    by decide, C9_register_index_overflow.2.2 7 (by decide)⟩

/-- C2 counterexample: with stack [1, 2] (1 on top, so 1 is first-popped
and 2 second-popped), the four lines emitted for the bare - token leave
2^64 - 1 on the stack, i.e. first-popped minus second-popped (1 - 2
mod 2^64), not second-popped minus first-popped (2 - 1 = 1) as the claim
states: the emitted sub rax, rdi subtracts the second-popped value (rdi)
from the first-popped one (rax). -/
theorem C2_sub_direction_counterexample :
    execLines (compileToken (.ValueToken none (.str "-"))).1 ⟨0, 0, 0, false, [1, 2]⟩ =
      some ⟨18446744073709551615, 2, 0, false, [18446744073709551615]⟩
    ∧ (18446744073709551615 : Nat) ≠ 2 - 1 := by
  exact ⟨by decide, by decide⟩

/-- C2 (amended): the bare - token pops two values and pushes first-popped
minus second-popped (two's-complement, modulo 2^64); the bare + token pops
two values and pushes second-popped plus first-popped (addition commutes,
so the + half of the original claim holds as stated); both have stack
effect -2, +1. -/
theorem C2_sub_add_semantics :
    compileToken (.ValueToken none (.str "-")) =
      ([ "pop rax", "pop rdi", "sub rax, rdi", "push rax"], none)
    ∧ (∀ (a b : Nat) (r : List Nat), a < WORDSIZE → b < WORDSIZE →
        execLines [ "pop rax", "pop rdi", "sub rax, rdi", "push rax"]
          ⟨0, 0, 0, false, a :: b :: r⟩ =
          some ⟨(a + (WORDSIZE - b)) % WORDSIZE, b, 0, false,
            ((a + (WORDSIZE - b)) % WORDSIZE) :: r⟩)
    ∧ compileToken (.ValueToken none (.str "+")) =
        ([ "pop rax", "pop rdi", "add rax, rdi", "push rax"], none)
    ∧ (∀ (a b : Nat) (r : List Nat),
        execLines [ "pop rax", "pop rdi", "add rax, rdi", "push rax"]
          ⟨0, 0, 0, false, a :: b :: r⟩ =
          some ⟨(b + a) % WORDSIZE, b, 0, false, ((b + a) % WORDSIZE) :: r⟩) := by
  refine ⟨by decide, ?_, by decide, ?_⟩
  · intro a b r ha hb
    have h1 : execLines [ "pop rax", "pop rdi", "sub rax, rdi", "push rax"]
        ⟨0, 0, 0, false, a :: b :: r⟩ =
        some ⟨(a % WORDSIZE + (WORDSIZE - b % WORDSIZE)) % WORDSIZE, b, 0, false,
          ((a % WORDSIZE + (WORDSIZE - b % WORDSIZE)) % WORDSIZE) :: r⟩ := rfl
    rw [h1, Nat.mod_eq_of_lt ha, Nat.mod_eq_of_lt hb]
  · intro a b r
    have h1 : execLines [ "pop rax", "pop rdi", "add rax, rdi", "push rax"]
        ⟨0, 0, 0, false, a :: b :: r⟩ =
        some ⟨(a % WORDSIZE + b % WORDSIZE) % WORDSIZE, b, 0, false,
          ((a % WORDSIZE + b % WORDSIZE) % WORDSIZE) :: r⟩ := rfl
    rw [h1, ← Nat.add_mod, Nat.add_comm a b]

/-- C2 witness: 5 on top of 3: the - lines push 5 - 3 = 2 (first-popped
minus second-popped). -/
theorem C2_sub_add_semantics_witness :
    (5 < WORDSIZE) ∧ (3 < WORDSIZE)
    ∧ execLines [ "pop rax", "pop rdi", "sub rax, rdi", "push rax"]
        ⟨0, 0, 0, false, 5 :: 3 :: []⟩ =
        some ⟨(5 + (WORDSIZE - 3)) % WORDSIZE, 3, 0, false,
          ((5 + (WORDSIZE - 3)) % WORDSIZE) :: []⟩ :=
  ⟨by decide, by decide, C2_sub_add_semantics.2.1 5 3 [] (by decide) (by decide)⟩

/-- C6 counterexample: the compare line emitted for the bare == token is
cmp rax, rdi, where rax received the first pop and rdi the second; the
first-popped value therefore stands in the left-hand operand position of
the comparison, while the claim places it as the right-hand operand (which
would be the line cmp rdi, rax). -/
theorem C6_operand_order_counterexample :
    (compileToken (.ValueToken none (.str "=="))).1 =
      [ "pop rax", "pop rdi", "xor rsi, rsi", "cmp rax, rdi", "sete sil", "push rsi"]
    ∧ (compileToken (.ValueToken none (.str "=="))).1[0]? = some "pop rax"
    ∧ (compileToken (.ValueToken none (.str "=="))).1[3]? = some "cmp rax, rdi"
    ∧ "cmp rax, rdi" ≠ "cmp rdi, rax" := by
  exact ⟨by decide, by decide, by decide, by decide⟩

/-- C6 (amended): the bare == token emits exactly the six lines
pop / pop / zero-scratch / compare / set-on-equal / push, with the
first-popped value as the left-hand operand of the compare (not the
right-hand one), and executing them pushes 1 if the two popped values are
equal and 0 otherwise, zero-extended to a full word (rsi is zeroed before
sete writes its low byte). -/
theorem C6_equality_operator :
    compileToken (.ValueToken none (.str "==")) =
      ([ "pop rax", "pop rdi", "xor rsi, rsi", "cmp rax, rdi", "sete sil", "push rsi"], none)
    ∧ (∀ (a b : Nat) (r : List Nat), a < WORDSIZE → b < WORDSIZE →
        execLines [ "pop rax", "pop rdi", "xor rsi, rsi", "cmp rax, rdi", "sete sil", "push rsi"]
          ⟨0, 0, 0, false, a :: b :: r⟩ =
          some ⟨a, b, (if a = b then 1 else 0), decide (a = b),
            (if a = b then 1 else 0) :: r⟩) := by
  refine ⟨by decide, ?_⟩
  intro a b r ha hb
  have h1 : execLines
      [ "pop rax", "pop rdi", "xor rsi, rsi", "cmp rax, rdi", "sete sil", "push rsi"]
      ⟨0, 0, 0, false, a :: b :: r⟩ =
      some ⟨a, b,
        0 / 256 * 256 + (if decide (a % WORDSIZE = b % WORDSIZE) = true then 1 else 0),
        decide (a % WORDSIZE = b % WORDSIZE),
        (0 / 256 * 256 + (if decide (a % WORDSIZE = b % WORDSIZE) = true then 1 else 0)) :: r⟩ :=
    rfl
  rw [h1, Nat.mod_eq_of_lt ha, Nat.mod_eq_of_lt hb]
  simp [decide_eq_true_eq]

/-- C6 witness: equal values 4 and 4 make the == lines push 1. -/
theorem C6_equality_operator_witness :
    (4 < WORDSIZE)
    ∧ execLines [ "pop rax", "pop rdi", "xor rsi, rsi", "cmp rax, rdi", "sete sil", "push rsi"]
        ⟨0, 0, 0, false, 4 :: 4 :: []⟩ =
        some ⟨4, 4, (if 4 = 4 then 1 else 0), decide (4 = 4), (if 4 = 4 then 1 else 0) :: []⟩ :=
  ⟨by decide, C6_equality_operator.2 4 4 [] (by decide) (by decide)⟩

/-- The decimal numeric value of a digit string, expressed independently of
the accumulator loop via Nat.ofDigits (least-significant digit first). -/
def decimalValue (l : List Char) : Nat :=
  Nat.ofDigits 10 ((l.map fun c => c.toNat - 48)).reverse

lemma foldl_digits_acc (l : List Char) :
    ∀ a : Nat,
      l.foldl (fun acc c => acc * 10 + (c.toNat - 48)) a =
        a * 10 ^ l.length + l.foldl (fun acc c => acc * 10 + (c.toNat - 48)) 0 := by
  induction l with
  | nil => intro a; simp
  | cons c t ih =>
    intro a
    simp only [List.foldl_cons, List.length_cons]
    rw [ih (a * 10 + (c.toNat - 48)), ih (0 * 10 + (c.toNat - 48))]
    ring

lemma pyStrToNat_eq_decimalValue (s : String) : pyStrToNat s = decimalValue s.data := by
  suffices h : ∀ l : List Char,
      l.foldl (fun acc c => acc * 10 + (c.toNat - 48)) 0 = decimalValue l from h s.data
  intro l
  induction l with
  | nil => simp [decimalValue, Nat.ofDigits_nil]
  | cons c t ih =>
    rw [List.foldl_cons, foldl_digits_acc t, ih]
    simp only [decimalValue, List.map_cons, List.reverse_cons, Nat.ofDigits_append,
      Nat.ofDigits_singleton, List.length_reverse, List.length_map]
    ring

/-- C3 counterexample: the empty string (a collectable payload, e.g. from
the input consisting of a bare sigil, and a collectable argument, e.g. from
f(,)) vacuously satisfies the all-characters-are-digits condition, yet
classification yields the identifier string, not an integer: Python
str.isdigit is False on the empty string. -/
theorem C3_empty_string_counterexample :
    ("".data.all Char.isDigit = true)
    ∧ pyClassify "" = Arg.str ""
    ∧ pyClassify "" ≠ Arg.int (pyStrToNat "")
    ∧ pyClassify "" ≠ Arg.int 0 := by
  exact ⟨by decide, by decide, by decide, by decide⟩

/-- C3 (amended): classification yields an integer equal to the string's
decimal numeric value if and only if the string is non-empty and every
character is a decimal digit; all other strings yield an identifier equal
to the raw text.  The same pyClassify is invoked at both scanner sites
(bare payloads, rpasm.py line 130, and function arguments, lines 149-150),
as the concrete scan of an input exercising both sites shows. -/
theorem C3_classification (s : String) :
    (pyClassify s = Arg.int (decimalValue s.data) ↔
      s.data ≠ [] ∧ s.data.all Char.isDigit = true)
    ∧ ((s.data = [] ∨ s.data.all Char.isDigit = false) → pyClassify s = Arg.str s)
    ∧ scanString 10 "7 f(7)" =
        .ok [.ValueToken none (.int 7), .FunctionToken "f" [.int 7]] := by
  refine ⟨?_, ?_, by decide⟩
  · constructor
    · intro h1
      cases hb : pyIsDigitStr s with
      | false => rw [pyClassify, if_neg (by simp [hb])] at h1; exact absurd h1 (by simp)
      | true =>
        have hb1 := hb
        simp only [pyIsDigitStr, Bool.and_eq_true, Bool.not_eq_true',
          List.isEmpty_eq_false] at hb1
        exact ⟨hb1.1, hb1.2⟩
    · intro h2
      have hb : pyIsDigitStr s = true := by
        simp [pyIsDigitStr, List.isEmpty_eq_false, h2.1, h2.2]
      rw [pyClassify, if_pos (by simp [hb]), pyStrToNat_eq_decimalValue]
  · intro h
    have hb : pyIsDigitStr s = false := by
      cases h with
      | inl h0 => simp [pyIsDigitStr, h0]
      | inr h0 => simp [pyIsDigitStr, h0]
    rw [pyClassify, if_neg (by simp [hb])]

/-- C3 witness: a digit string classifies as its value, a letter as an
identifier. -/
theorem C3_classification_witness :
    (("12" : String).data ≠ [] ∧ ("12" : String).data.all Char.isDigit = true)
    ∧ pyClassify "12" = Arg.int (decimalValue ("12" : String).data)
    ∧ (("x" : String).data = [] ∨ ("x" : String).data.all Char.isDigit = false)
    ∧ pyClassify "x" = Arg.str "x" :=
  ⟨by decide, (C3_classification "12").1.mpr (by decide), Or.inr (by decide),
    (C3_classification "x").2.1 (Or.inr (by decide))⟩

lemma toDigitsCore_ne_nil (b : Nat) :
    ∀ (f n : Nat) (l : List Char), l ≠ [] → Nat.toDigitsCore b f n l ≠ [] := by
  intro f
  induction f with
  | zero => intro n l h; simpa [Nat.toDigitsCore] using h
  | succ f ih =>
    intro n l h
    simp only [Nat.toDigitsCore]
    by_cases h0 : n / b = 0
    · simp [h0]
    · simp only [h0, if_false]
      exact ih (n / b) (Nat.digitChar (n % b) :: l) (by simp)

lemma toString_nat_data_ne_nil (n : Nat) : (toString n).data ≠ [] := by
  have hd : (toString n).data = Nat.toDigitsCore 10 (n + 1) n [] := rfl
  rw [hd]
  simp only [Nat.toDigitsCore]
  by_cases h0 : n / 10 = 0
  · simp [h0]
  · simp only [h0, if_false]
    exact toDigitsCore_ne_nil 10 n (n / 10) [Nat.digitChar (n % 10)] (by simp)

lemma db_fold (l : List Char) :
    ∀ acc : List Char, 3 < acc.length →
      l.foldl
        (fun a c => (if a = "db ".data then a else a ++ ", ".data) ++ (toString c.toNat).data)
        acc
      = acc ++ (l.map (fun c => ", ".data ++ (toString c.toNat).data)).flatten := by
  induction l with
  | nil => intro acc _; simp
  | cons c t ih =>
    intro acc hacc
    have hne : acc ≠ "db ".data := by
      intro he
      have h3 : ("db ".data).length = 3 := rfl
      rw [he] at hacc
      omega
    rw [List.foldl_cons, if_neg hne]
    rw [ih ((acc ++ ", ".data) ++ (toString c.toNat).data) (by
      have h2 : (", ".data).length = 2 := rfl
      rw [List.length_append, List.length_append, h2]
      omega)]
    simp [List.append_assoc]

lemma intercalate_cons_flatten (sep : List Char) :
    ∀ (xs : List (List Char)) (x : List Char),
      List.intercalate sep (x :: xs) = x ++ (xs.map (fun y => sep ++ y)).flatten := by
  intro xs
  induction xs with
  | nil => intro x; simp [List.intercalate]
  | cons y t ih =>
    intro x
    have hy := ih y
    simp only [List.intercalate] at hy ⊢
    simp only [List.intersperse_cons₂, List.flatten_cons]
    rw [hy]
    simp [List.append_assoc]

/-- C5: a string-literal token emits exactly one db line listing the
ordinal of every character, with a trailing zero appended exactly when the
text does not already end in a NUL character; in particular the literal AB
emits the single line db 65, 66, 0. -/
theorem C5_string_literal :
    (∀ s : String,
        compileTokens [.StringToken s] = ([asm_str s], none)
        ∧ asm_str s = String.mk ("db ".data ++ List.intercalate ", ".data
            ((if s.data.getLast? = some '\x00' then s.data else s.data ++ ['\x00']).map
              (fun c => (toString c.toNat).data))))
    ∧ asm_str "AB" = "db 65, 66, 0" := by
  refine ⟨?_, by decide⟩
  intro s
  refine ⟨by simp [compileTokens, compileToken], ?_⟩
  have hLne : (if s.data.getLast? = some '\x00' then s.data else s.data ++ ['\x00']) ≠ [] := by
    split
    · rename_i h0
      intro he
      rw [he] at h0
      simp at h0
    · simp
  obtain ⟨c, t, hct⟩ :=
    List.exists_cons_of_ne_nil hLne
  have hunf : asm_str s = String.mk
      ((if s.data.getLast? = some '\x00' then s.data else s.data ++ ['\x00']).foldl
        (fun acc c =>
          (if acc = "db ".data then acc else acc ++ ", ".data) ++ (toString c.toNat).data)
        ("db ".data)) := rfl
  rw [hunf, hct, List.foldl_cons, if_pos rfl, List.map_cons, intercalate_cons_flatten]
  rw [db_fold t ("db ".data ++ (toString c.toNat).data) (by
    have h3 : ("db ".data).length = 3 := rfl
    have h5 : 0 < (toString c.toNat).data.length :=
      List.length_pos.mpr (toString_nat_data_ne_nil _)
    rw [List.length_append, h3]
    omega)]
  simp [List.append_assoc, List.map_map, Function.comp_def]

lemma scanArgs_no_close :
    ∀ (fuel : Nat) (cs : List Char) (args : List Arg),
      (∀ c ∈ cs, c ≠ ')') → scanArgs fuel cs args = .argsOut := by
  intro fuel
  induction fuel with
  | zero => intro cs args _; rfl
  | succ f ih =>
    intro cs args h
    have hsub : ∀ c ∈ cs.dropWhile pyIsSpace, c ≠ ')' :=
      fun c hc => h c ((List.dropWhile_sublist pyIsSpace).subset hc)
    have hne : ¬((cs.dropWhile pyIsSpace).head? = some ')') := by
      cases hd : cs.dropWhile pyIsSpace with
      | nil => simp
      | cons a t =>
        simp only [List.head?_cons, Option.some.injEq]
        exact hsub a (by rw [hd]; exact List.mem_cons_self a t)
    simp only [scanArgs, if_neg hne]
    apply ih
    intro c hc
    have hdd : List.Sublist ((cs.dropWhile pyIsSpace).dropWhile isArgChar) cs :=
      (List.dropWhile_sublist isArgChar).trans (List.dropWhile_sublist pyIsSpace)
    by_cases hcomma : ((cs.dropWhile pyIsSpace).dropWhile isArgChar).head? = some ','
    · rw [if_pos hcomma] at hc
      exact h c (hdd.subset ((List.tail_sublist _).subset hc))
    · rw [if_neg hcomma] at hc
      exact h c (hdd.subset hc)

lemma scanArgs_ok_rest :
    ∀ (fuel : Nat) (cs : List Char) (args as : List Arg) (rest : List Char),
      scanArgs fuel cs args = .argsOk as rest → rest.head? = some ')' := by
  intro fuel
  induction fuel with
  | zero => intro cs args as rest h; exact absurd h (by simp [scanArgs])
  | succ f ih =>
    intro cs args as rest h
    by_cases hd : (cs.dropWhile pyIsSpace).head? = some ')'
    · simp only [scanArgs, if_pos hd] at h
      injection h with h1 h2
      rw [← h2]
      exact hd
    · simp only [scanArgs, if_neg hd] at h
      exact ih _ _ _ _ h

lemma scanLoop_ne_unclosedFunction :
    ∀ (fuel : Nat) (cs : List Char) (toks : List Token),
      scanLoop fuel cs toks ≠ .err .unclosedFunction := by
  intro fuel
  induction fuel with
  | zero => intro cs toks; simp [scanLoop]
  | succ f ih =>
    intro cs toks
    match cs with
    | [] => simp [scanLoop]
    | c :: rest =>
      simp only [scanLoop]
      split
      · exact ih _ _
      · split
        · exact ih _ _
        · split
          · split
            · simp
            · exact ih _ _
          · split
            · -- a sigil is present
              split
              · exact ih _ _
              · split
                · simp
                · rename_i hno
                  exact absurd rfl hno
            · -- no sigil
              split
              · exact ih _ _
              · split
                · rename_i hyes
                  exact absurd hyes (by simp)
                · split
                  · simp
                  · rename_i args cs3 heq
                    have hh := scanArgs_ok_rest f _ [] args cs3 heq
                    have hne : cs3 ≠ [] := by
                      intro he
                      rw [he] at hh
                      simp at hh
                    rw [if_neg hne]
                    exact ih _ _

/-- C1: when input ends inside a function argument list before the closing
parenthesis, the scanner does not raise: the argument loop only exits on a
closing parenthesis, so at end of input it spins forever appending empty
arguments (argsOut for every fuel, i.e. divergence), and the
unclosed-function raise after the loop (rpasm.py lines 152-153) is
unreachable on every input; the claim describes the intended behaviour,
but the code loops instead of raising. -/
theorem C1_unterminated_function_diverges :
    (∀ (fuel : Nat) (cs : List Char) (args : List Arg),
        (∀ c ∈ cs, c ≠ ')') → scanArgs fuel cs args = .argsOut)
    ∧ (∀ fuel : Nat, scanString fuel "f(" = .outOfFuel)
    ∧ (∀ (fuel : Nat) (cs : List Char) (toks : List Token),
        scanLoop fuel cs toks ≠ .err .unclosedFunction) := by
  refine ⟨scanArgs_no_close, ?_, scanLoop_ne_unclosedFunction⟩
  intro fuel
  cases fuel with
  | zero => rfl
  | succ f =>
    have h0 : scanArgs f [] [] = .argsOut := scanArgs_no_close f [] [] (by simp)
    have h1 : scanString (f + 1) "f(" =
        (match scanArgs f [] [] with
         | .argsOut => ScanResult.outOfFuel
         | .argsOk args cs3 =>
           if cs3 = [] then ScanResult.err .unclosedFunction
           else scanLoop f cs3.tail ([] ++ [Token.FunctionToken (String.mk ['f']) args])) := rfl
    rw [h1, h0]

/-- C1 witness: the divergence at end of input inside an argument list,
at fuel 3, on the input consisting of a function name and an opening
parenthesis. -/
theorem C1_unterminated_function_diverges_witness :
    scanArgs 3 [] [] = .argsOut ∧ scanString 3 "f(" = .outOfFuel :=
  ⟨C1_unterminated_function_diverges.1 3 [] [] (by simp),
    C1_unterminated_function_diverges.2.1 3⟩
